import Mathlib

/-!
Verification of `lib/sm/sm.c` from the trusty_lk_trusty secure-monitor
library: the trusted-service handler registry
(`sm_register_trusted_service_handler`), the boot-argument lifetime manager
(`sm_init` / `sm_get_boot_args` / `sm_put_boot_args` /
`sm_release_boot_args`), the world-switch dispatch loop
(`sm_wait_for_smcall`), and the IRQ interception routine (`sm_handle_irq`).

The external collaborators (the world-switch primitive
`sm_sched_nonsecure`, `kmap_contig` / `kunmap`, threading, the mutex, the
critical section, `dprintf` / `TRACEF` logging) are modelled by their
observable effects: scripted responses for the switch primitive, an
explicit map/unmap/resume/warn event count in the state, and parameters
for the platform boot-argument values `sm_platform_boot_args[0..1]`.
-/

/-- Modelled from the spec: the lk `err.h` status codes are not part of
src/ (only `sm.c` is). The concrete integers are placeholders; only their
identity and distinctness matter to the claims. `NO_ERROR` is zero as in
lk. -/
def NO_ERROR : Int := 0

/-- Modelled from the spec: lk `err.h` code for a second registration
attempt (`AlreadyRegistered`). -/
def ERR_ALREADY_EXISTS : Int := -14

/-- Modelled from the spec: lk `err.h` code for malformed arguments
(`InvalidArgs`). -/
def ERR_INVALID_ARGS : Int := -8

/-- Modelled from the spec: lk `err.h` code for boot arguments requested
but never mapped (`NotConfigured`). -/
def ERR_NOT_CONFIGURED : Int := -38

/-- Modelled from the spec: `sm_err.h` is not part of src/. The code the
IRQ interception routine passes on its first switch call
(`Interrupted`). Placeholder value; distinct from the others and from the
neutral initial result 0. -/
def SM_ERR_INTERRUPTED : Int := -1

/-- Modelled from the spec: `sm_err.h` code set by the dispatch loop when
the switch primitive returns null (`UnexpectedRestart`). -/
def SM_ERR_UNEXPECTED_RESTART : Int := -2

/-- Modelled from the spec: `sm_err.h` code passed while draining chained
switch attempts (`InterleavedCall`). -/
def SM_ERR_INTERLEAVED_SMC : Int := -3

/-- Modelled from the spec: `sm_err.h` code reported when a call arrives
with no handler registered (`NotSupported`). -/
def SM_ERR_NOT_SUPPORTED : Int := -4

/-! ## Trusted-service handler registry

`static trusted_service_handler_routine ts_handler;` is a single function
pointer, NULL when unset; `none` models the NULL pointer. A handler takes
the copied call arguments (type parameter `A`) and returns a `long`
result. -/

/-- `sm_register_trusted_service_handler` from sm.c, as a transition on
the registry slot: if `ts_handler` is non-null the call returns
`ERR_ALREADY_EXISTS` and leaves the slot unchanged; otherwise it stores
`fn` (inside a critical section) and returns `NO_ERROR`. Note the C code
tests the slot, not the argument: storing a NULL `fn` succeeds and leaves
the slot NULL. -/
def sm_register_trusted_service_handler {H : Type} (ts_handler : Option H)
    (fn : Option H) : Int × Option H :=
  match ts_handler with
  | some h => (ERR_ALREADY_EXISTS, some h)
  | none => (NO_ERROR, fn)

/-- Run a sequence of registration calls from a given registry state,
collecting the returned status of each call and the final slot. -/
def runRegs {H : Type} (s : Option H) : List (Option H) → List Int × Option H
  | [] => ([], s)
  | fn :: rest =>
    let r := sm_register_trusted_service_handler s fn
    let p := runRegs r.2 rest
    (r.1 :: p.1, p.2)

/-! ## World-switch dispatch loop

`sm_wait_for_smcall` is an infinite loop; it is modelled by the finite
trace of observable events it emits while consuming a finite script of
responses from `sm_sched_nonsecure` (one `Option A` per call: `none`
models a NULL `ts_args_t *`). The trace records critical-section entry
and exit, the yield, each switch call with the `ret` argument passed to
it and whether it returned arguments, each handler invocation with its
result, and the no-handler log message. -/

inductive Event where
  | enterCS : Event
  | yieldCpu : Event
  | sched : Int → Bool → Event
  | exitCS : Event
  | handlerCall : Int → Event
  | logNoHandler : Event
deriving DecidableEq, Repr

/-- One body of `sm_wait_for_smcall` per script entry, transcribed from
sm.c: enter the critical section, `thread_yield()`, call
`sm_sched_nonsecure(ret)`; on a NULL result set
`ret = SM_ERR_UNEXPECTED_RESTART`, exit the critical section and
continue; otherwise copy the arguments out, exit the critical section,
then run the registered handler (capturing its result as the next `ret`)
or, with no handler, log and set `ret = SM_ERR_NOT_SUPPORTED`. -/
def loopTrace {A : Type} (ts_handler : Option (A → Int)) :
    Int → List (Option A) → List Event
  | _, [] => []
  | ret, none :: rest =>
    Event.enterCS :: Event.yieldCpu :: Event.sched ret false ::
      Event.exitCS :: loopTrace ts_handler SM_ERR_UNEXPECTED_RESTART rest
  | ret, some a :: rest =>
    Event.enterCS :: Event.yieldCpu :: Event.sched ret true ::
      Event.exitCS ::
      match ts_handler with
      | some f => Event.handlerCall (f a) :: loopTrace ts_handler (f a) rest
      | none => Event.logNoHandler ::
          loopTrace ts_handler SM_ERR_NOT_SUPPORTED rest

/-- The sequence of `ret` arguments passed to `sm_sched_nonsecure`, in
order, read off a dispatch-loop trace. -/
def schedArgs (tr : List Event) : List Int :=
  tr.filterMap fun e =>
    match e with
    | Event.sched r _ => some r
    | _ => none

/-- The events a trace emits after a given position and strictly before
the next critical-section entry. Used to observe what the loop does
between a switch call and the start of the next iteration. -/
def beforeReentry (tr : List Event) (pos : Nat) : List Event :=
  (tr.drop pos).takeWhile fun e => e != Event.enterCS

/-! ## IRQ interception -/

inductive handler_return where
  | INT_NO_RESCHEDULE : handler_return
  | INT_RESCHEDULE : handler_return
deriving DecidableEq, Repr

/-- The `while (args) args = sm_sched_nonsecure(SM_ERR_INTERLEAVED_SMC);`
drain loop of `sm_handle_irq`: the head of `script` is the response
(non-null?) to the previous switch call; while it is non-null another
call passing `SM_ERR_INTERLEAVED_SMC` is made. An exhausted script means
the primitive returns null. -/
def irqDrain : List Bool → List Int
  | [] => []
  | true :: rest => SM_ERR_INTERLEAVED_SMC :: irqDrain rest
  | false :: _ => []

/-- `sm_handle_irq` from sm.c, driven by a script of switch-primitive
responses: returns the list of error codes passed to
`sm_sched_nonsecure`, in order (first `SM_ERR_INTERRUPTED`, then
`SM_ERR_INTERLEAVED_SMC` while responses are non-null), and the routine
result, which is always `INT_NO_RESCHEDULE`. -/
def sm_handle_irq (script : List Bool) : List Int × handler_return :=
  (SM_ERR_INTERRUPTED :: irqDrain script, handler_return.INT_NO_RESCHEDULE)

/-! ## Boot-argument lifetime manager

State of the manager: `bootArgs` models the `static void *boot_args`
view pointer (`none` = NULL; `kmap_contig` never maps at virtual address
0, so a successful mapping is `some v`), `boot_args_refcnt` the
`static int boot_args_refcnt`. The counters record the observable calls
to the external collaborators: `unmaps` counts `kunmap` calls, `resumes`
counts `thread_resume(nsthread)` calls, `warns` counts the TRACEF
warnings of the put/release paths. The platform values
`sm_platform_boot_args[0]` (address) and `[1]` (size) are passed as
parameters. -/

structure SmState where
  bootArgs : Option Nat
  boot_args_refcnt : Int
  unmaps : Nat
  resumes : Nat
  warns : Nat
deriving DecidableEq, Repr

/-- State at boot: NULL view, zero reference count, no collaborator calls
made. -/
def SmState.initial : SmState := ⟨none, 0, 0, 0, 0⟩

/-- `sm_init` from sm.c (the boot-argument part, under the mutex): if
both platform values are non-zero, attempt the mapping; `kres` is the
outcome of `kmap_contig` (`some v` = success with virtual address `v`,
`none` = error). On success the reference count is incremented; on error
`boot_args` is set to NULL and the error is logged. With a zero address
or size nothing happens. The creation of the suspended ns-switch thread
is an external effect and is not part of this state. -/
def sm_init (addr size : Nat) (kres : Option Nat) (s : SmState) : SmState :=
  if addr ≠ 0 ∧ size ≠ 0 then
    match kres with
    | some v =>
      { s with bootArgs := some v,
               boot_args_refcnt := s.boot_args_refcnt + 1 }
    | none => { s with bootArgs := none }
  else s

/-- `sm_get_boot_args` from sm.c: `boot_argsp_null` and `args_sizep_null`
say whether the respective output pointer is NULL. Returns the status,
the pair written through the output pointers (`none` when nothing is
written), and the state after the call. `size` is
`sm_platform_boot_args[1]`. -/
def sm_get_boot_args (boot_argsp_null args_sizep_null : Bool) (size : Nat)
    (s : SmState) : Int × Option (Nat × Nat) × SmState :=
  if boot_argsp_null || args_sizep_null then (ERR_INVALID_ARGS, none, s)
  else
    match s.bootArgs with
    | none => (ERR_NOT_CONFIGURED, none, s)
    | some v =>
      (NO_ERROR, some (v, size),
        { s with boot_args_refcnt := s.boot_args_refcnt + 1 })

/-- `sm_put_boot_args` from sm.c: with a NULL view, log the
reference-owned-by-nobody warning and return; otherwise decrement the
count and, exactly when it reaches zero, `kunmap` the view, clear it and
resume the ns-switch thread. -/
def sm_put_boot_args (_size : Nat) (s : SmState) : SmState :=
  match s.bootArgs with
  | none => { s with warns := s.warns + 1 }
  | some _ =>
    let r := s.boot_args_refcnt - 1
    if r = 0 then
      { s with boot_args_refcnt := r, bootArgs := none,
               unmaps := s.unmaps + 1, resumes := s.resumes + 1 }
    else { s with boot_args_refcnt := r }

/-- `sm_release_boot_args` from sm.c (the finalize init hook): if a view
is mapped, drop the init-time reference through `sm_put_boot_args`;
otherwise resume the ns-switch thread directly. Afterwards, if a view is
still mapped, log the outstanding-reference warning. -/
def sm_release_boot_args (size : Nat) (s : SmState) : SmState :=
  let s2 :=
    match s.bootArgs with
    | some _ => sm_put_boot_args size s
    | none => { s with resumes := s.resumes + 1 }
  match s2.bootArgs with
  | some _ => { s2 with warns := s2.warns + 1 }
  | none => s2

/-- The accessor operations a consumer can perform after init: an acquire
(with the two output-pointer nullness flags) or a release. -/
inductive Op where
  | get : Bool → Bool → Op
  | put : Op
deriving DecidableEq, Repr

/-- Run a sequence of accessor operations, threading the state. -/
def runOps (size : Nat) (s : SmState) : List Op → SmState
  | [] => s
  | Op.get pN sN :: rest => runOps size (sm_get_boot_args pN sN size s).2.2 rest
  | Op.put :: rest => runOps size (sm_put_boot_args size s) rest

/-- The boot-argument invariant: the view exists if and only if the
reference count is strictly positive. -/
def bootArgsInv (s : SmState) : Prop :=
  s.bootArgs.isSome ↔ 0 < s.boot_args_refcnt

instance (s : SmState) : Decidable (bootArgsInv s) := by
  unfold bootArgsInv; infer_instance

/-- `n` consecutive `sm_get_boot_args` calls with valid output pointers:
the list of returned statuses and the final state. -/
def getN (size : Nat) : Nat → SmState → List Int × SmState
  | 0, s => ([], s)
  | Nat.succ n, s =>
    let r := sm_get_boot_args false false size s
    let p := getN size n r.2.2
    (r.1 :: p.1, p.2)

/-- `k` consecutive `sm_put_boot_args` calls. -/
def putK (size : Nat) : Nat → SmState → SmState
  | 0, s => s
  | Nat.succ k, s => putK size k (sm_put_boot_args size s)

/-! ## Theorems: handler registry -/

/-- Once the registry slot holds a handler, every registration call fails
with `ERR_ALREADY_EXISTS` and the slot is unchanged. -/
theorem runRegs_registered {H : Type} (f : H) (calls : List (Option H)) :
    runRegs (some f) calls =
      (List.replicate calls.length ERR_ALREADY_EXISTS, some f) := by
  induction calls with
  | nil => rfl
  | cons fn rest ih =>
    simp [runRegs, sm_register_trusted_service_handler, ih,
      List.replicate_succ]

/-- C1 (counterexample): two calls can both return `NO_ERROR`. The first
call passes a NULL handler in the unregistered state: it succeeds but
stores nothing, so the second call (with a real handler) succeeds as
well, refuting that at most the first call succeeds and that every
subsequent call returns `ERR_ALREADY_EXISTS`. -/
theorem sm_register_two_successes_counterexample :
    (runRegs (none : Option (Nat → Int))
        [none, some fun _ => 0]).1 = [NO_ERROR, NO_ERROR] ∧
      NO_ERROR ≠ ERR_ALREADY_EXISTS := by
  exact ⟨rfl, by decide⟩

/-- C1 (amended): once a call has stored a (non-null) handler `f`, every
subsequent registration call returns `ERR_ALREADY_EXISTS` and leaves `f`
in place, and `f` remains the handler the dispatch loop invokes on a
returned call; a call passing NULL in the unregistered state returns
`NO_ERROR` but stores nothing, so only calls passing a non-null handler
register anything. -/
theorem sm_register_at_most_one_nonnull {A : Type} (f : A → Int)
    (calls : List (Option (A → Int))) :
    runRegs (some f) calls =
        (List.replicate calls.length ERR_ALREADY_EXISTS, some f) ∧
      (∀ (a : A) (ret : Int) (rest : List (Option A)),
        Event.handlerCall (f a) ∈ loopTrace (some f) ret (some a :: rest)) ∧
      (∀ fn : Option (A → Int),
        (sm_register_trusted_service_handler (none : Option (A → Int)) fn).2
          = fn) := by
  refine ⟨runRegs_registered f calls, ?_, ?_⟩
  · intro a ret rest
    simp [loopTrace]
  · intro fn
    rfl

/-- C10: in the unregistered state, registering a NULL handler returns
`NO_ERROR` while leaving the registry empty, after which a non-null
handler can also be registered successfully. -/
theorem sm_register_null_handler_loophole (f : Nat → Int) :
    sm_register_trusted_service_handler (none : Option (Nat → Int)) none
        = (NO_ERROR, none) ∧
      sm_register_trusted_service_handler (none : Option (Nat → Int))
        (some f) = (NO_ERROR, some f) := by
  exact ⟨rfl, rfl⟩

/-! ## Theorems: dispatch loop -/

/-- C7: with no handler registered, over the script "null response, then
a valid arguments record": the three switch calls receive the neutral
initial result, then `SM_ERR_UNEXPECTED_RESTART` (recorded by the first
iteration), then `SM_ERR_NOT_SUPPORTED` (the second iteration logged the
missing handler and its dispatch step yielded not-supported). -/
theorem sm_wait_for_smcall_no_handler_script (a : Nat) (r3 : Option Nat) :
    schedArgs (loopTrace (none : Option (Nat → Int)) 0 [none, some a, r3])
        = [0, SM_ERR_UNEXPECTED_RESTART, SM_ERR_NOT_SUPPORTED] ∧
      Event.logNoHandler ∈
        loopTrace (none : Option (Nat → Int)) 0 [none, some a, r3] := by
  cases r3 <;> exact ⟨rfl, by simp [loopTrace]⟩

/-- C9 (counterexample): on a null switch result the loop does exit the
critical section before the next iteration re-enters it: between the
switch call of a null iteration and the next critical-section entry the
loop emits exactly one `exitCS` event. Concretely, over the script of two
null responses, the events after the first switch call and before the
next entry are `[exitCS]`, refuting that the null-result path never exits
the critical section before re-entering. -/
theorem sm_dispatch_cs_exit_on_null_counterexample :
    beforeReentry
        (loopTrace (none : Option (Nat → Int)) 0 [none, none]) 3
        = [Event.exitCS] ∧
      Event.exitCS ∈
        beforeReentry
          (loopTrace (none : Option (Nat → Int)) 0 [none, none]) 3 := by
  exact ⟨rfl, by decide⟩

/-- Critical-section entries and exits are balanced in every
dispatch-loop trace. -/
theorem loopTrace_cs_balanced {A : Type} (h : Option (A → Int)) (ret : Int)
    (script : List (Option A)) :
    (loopTrace h ret script).count Event.exitCS
      = (loopTrace h ret script).count Event.enterCS := by
  induction script generalizing ret with
  | nil => rfl
  | cons r rest ih =>
    cases r with
    | none => simp [loopTrace, List.count_cons, ih]
    | some a =>
      cases h with
      | none => simp [loopTrace, List.count_cons, ih]
      | some f => simp [loopTrace, List.count_cons, ih]

/-- C9 (amended): in every iteration in which the switch primitive
returns null, the loop records `SM_ERR_UNEXPECTED_RESTART` as the result
passed to the next switch call, exits the critical section exactly once
(no handler dispatch happens on that path), and only then continues into
the next iteration, which re-enters the critical section; entries and
exits are balanced over any script. -/
theorem sm_wait_for_smcall_null_path (A : Type) (h : Option (A → Int))
    (ret : Int) (rest : List (Option A)) :
    loopTrace h ret (none :: rest)
        = Event.enterCS :: Event.yieldCpu :: Event.sched ret false ::
            Event.exitCS :: loopTrace h SM_ERR_UNEXPECTED_RESTART rest ∧
      beforeReentry (loopTrace h ret (none :: rest)) 3 = [Event.exitCS] ∧
      (loopTrace h ret (none :: rest)).count Event.exitCS
        = (loopTrace h ret (none :: rest)).count Event.enterCS := by
  refine ⟨rfl, ?_, loopTrace_cs_balanced h ret (none :: rest)⟩
  cases rest with
  | nil => rfl
  | cons r rest2 =>
    cases r with
    | none => rfl
    | some a => cases h <;> rfl

/-! ## Theorems: IRQ interception -/

/-- C8: with a scripted switch primitive that returns a non-null result
exactly twice and then null, `sm_handle_irq` invokes the primitive
exactly three times — first passing `SM_ERR_INTERRUPTED`, then twice
`SM_ERR_INTERLEAVED_SMC` — and returns `INT_NO_RESCHEDULE`. -/
theorem sm_handle_irq_drain_script :
    sm_handle_irq [true, true, false]
        = ([SM_ERR_INTERRUPTED, SM_ERR_INTERLEAVED_SMC,
              SM_ERR_INTERLEAVED_SMC],
            handler_return.INT_NO_RESCHEDULE) ∧
      (sm_handle_irq [true, true, false]).1.length = 3 := by
  exact ⟨rfl, rfl⟩

/-! ## Theorems: boot-argument lifetime manager -/

/-- The acquire path preserves the view/refcount invariant. -/
theorem get_preserves_inv (pN sN : Bool) (size : Nat) (s : SmState)
    (h : bootArgsInv s) :
    bootArgsInv (sm_get_boot_args pN sN size s).2.2 := by
  unfold sm_get_boot_args
  split
  · exact h
  · rcases hb : s.bootArgs with _ | v
    · simp_all [bootArgsInv, hb]
    · simp_all [bootArgsInv, hb]
      omega

/-- The release path preserves the view/refcount invariant. -/
theorem put_preserves_inv (size : Nat) (s : SmState) (h : bootArgsInv s) :
    bootArgsInv (sm_put_boot_args size s) := by
  unfold sm_put_boot_args
  rcases hb : s.bootArgs with _ | v
  · simp_all [bootArgsInv, hb]
  · simp_all [bootArgsInv, hb]
    split
    · simp_all
    · simp_all
      omega

/-- Any accessor sequence preserves the view/refcount invariant. -/
theorem runOps_preserves_inv (size : Nat) (ops : List Op) (s : SmState)
    (h : bootArgsInv s) : bootArgsInv (runOps size s ops) := by
  induction ops generalizing s with
  | nil => exact h
  | cons op rest ih =>
    cases op with
    | get pN sN => exact ih _ (get_preserves_inv pN sN size s h)
    | put => exact ih _ (put_preserves_inv size s h)

/-- `sm_init` establishes the invariant from the boot state. -/
theorem sm_init_establishes_inv (addr size : Nat) (kres : Option Nat) :
    bootArgsInv (sm_init addr size kres SmState.initial) := by
  unfold sm_init
  split
  · cases kres <;> simp [bootArgsInv, SmState.initial]
  · simp [bootArgsInv, SmState.initial]

/-- C2: in every state reachable from boot by `sm_init` followed by any
sequence of `sm_get_boot_args` / `sm_put_boot_args` calls, the view
pointer is non-null exactly when the reference count is positive;
moreover the acquire and release operations each preserve this invariant
from any state satisfying it, and `sm_init` establishes it from the boot
state. -/
theorem boot_args_view_refcnt_invariant :
    (∀ (addr size : Nat) (kres : Option Nat) (ops : List Op),
        bootArgsInv
          (runOps size (sm_init addr size kres SmState.initial) ops)) ∧
      (∀ (pN sN : Bool) (size : Nat) (s : SmState), bootArgsInv s →
        bootArgsInv (sm_get_boot_args pN sN size s).2.2) ∧
      (∀ (size : Nat) (s : SmState), bootArgsInv s →
        bootArgsInv (sm_put_boot_args size s)) := by
  refine ⟨?_, get_preserves_inv, put_preserves_inv⟩
  intro addr size kres ops
  exact runOps_preserves_inv size ops _ (sm_init_establishes_inv addr size kres)

/-- C2 witness: the invariant after a concrete release call from the boot
state. -/
theorem boot_args_view_refcnt_invariant_witness :
    bootArgsInv (sm_put_boot_args 1 SmState.initial) :=
  boot_args_view_refcnt_invariant.2.2 1 SmState.initial (by decide)

/-- C4: `sm_get_boot_args` returns `ERR_INVALID_ARGS` without touching
any state whenever either output pointer is NULL; with valid pointers and
no view it returns `ERR_NOT_CONFIGURED` leaving the state (in particular
the reference count) unchanged; with valid pointers and a mapped view it
returns `NO_ERROR`, writes the view pointer and the boot-supplied size
into the output slots, and increments the reference count by exactly
one. -/
theorem sm_get_boot_args_contract :
    (∀ (sN : Bool) (size : Nat) (s : SmState),
        sm_get_boot_args true sN size s = (ERR_INVALID_ARGS, none, s)) ∧
      (∀ (pN : Bool) (size : Nat) (s : SmState),
        sm_get_boot_args pN true size s = (ERR_INVALID_ARGS, none, s)) ∧
      (∀ (size : Nat) (s : SmState), s.bootArgs = none →
        sm_get_boot_args false false size s = (ERR_NOT_CONFIGURED, none, s)) ∧
      (∀ (size v : Nat) (s : SmState), s.bootArgs = some v →
        sm_get_boot_args false false size s
          = (NO_ERROR, some (v, size),
              { s with boot_args_refcnt := s.boot_args_refcnt + 1 })) := by
  refine ⟨?_, ?_, ?_, ?_⟩
  · intro sN size s
    simp [sm_get_boot_args]
  · intro pN size s
    cases pN <;> simp [sm_get_boot_args]
  · intro size s h
    simp [sm_get_boot_args, h]
  · intro size v s h
    simp [sm_get_boot_args, h]

/-- C4 witness: the not-configured case at the boot state. -/
theorem sm_get_boot_args_contract_witness :
    sm_get_boot_args false false 5 SmState.initial
      = (ERR_NOT_CONFIGURED, none, SmState.initial) :=
  sm_get_boot_args_contract.2.2.1 5 SmState.initial rfl

/-- C5: a release call in a state with no mapped view only logs the
warning: the reference count is not decremented (so it cannot go below
zero), no unmap or resume happens, and all state other than the warning
count is unchanged. -/
theorem sm_put_boot_args_no_view (size : Nat) (s : SmState)
    (h : s.bootArgs = none) :
    sm_put_boot_args size s = { s with warns := s.warns + 1 } ∧
      (sm_put_boot_args size s).boot_args_refcnt = s.boot_args_refcnt ∧
      (sm_put_boot_args size s).unmaps = s.unmaps ∧
      (sm_put_boot_args size s).resumes = s.resumes := by
  unfold sm_put_boot_args
  simp [h]

/-- C5 witness: a release at the boot state. -/
theorem sm_put_boot_args_no_view_witness :
    sm_put_boot_args 1 SmState.initial
        = { SmState.initial with warns := SmState.initial.warns + 1 } ∧
      (sm_put_boot_args 1 SmState.initial).boot_args_refcnt
        = SmState.initial.boot_args_refcnt ∧
      (sm_put_boot_args 1 SmState.initial).unmaps = SmState.initial.unmaps ∧
      (sm_put_boot_args 1 SmState.initial).resumes
        = SmState.initial.resumes :=
  sm_put_boot_args_no_view 1 SmState.initial rfl

/-- `n` acquires from a state with a mapped view all succeed and add `n`
to the reference count, touching nothing else. -/
theorem getN_mapped (size v : Nat) (n : Nat) (s : SmState)
    (h : s.bootArgs = some v) :
    getN size n s
      = (List.replicate n NO_ERROR,
          { s with boot_args_refcnt := s.boot_args_refcnt + n }) := by
  induction n generalizing s with
  | zero =>
    cases s
    simp [getN]
  | succ n ih =>
    have hstep : sm_get_boot_args false false size s
        = (NO_ERROR, some (v, size),
            { s with boot_args_refcnt := s.boot_args_refcnt + 1 }) := by
      simp [sm_get_boot_args, h]
    have hrec := ih { s with boot_args_refcnt := s.boot_args_refcnt + 1 } h
    simp only [getN, hstep, hrec, List.replicate_succ, Prod.mk.injEq,
      SmState.mk.injEq]
    refine ⟨trivial, trivial, ?_, trivial, trivial, trivial⟩
    push_cast
    ring

/-- Splitting a `putK` run. -/
theorem putK_add (size a b : Nat) (s : SmState) :
    putK size (a + b) s = putK size b (putK size a s) := by
  induction a generalizing s with
  | zero => simp [putK]
  | succ a ih =>
    have h : a + 1 + b = (a + b) + 1 := by omega
    rw [h]
    simp only [putK]
    exact ih (sm_put_boot_args size s)

/-- Fewer releases than the reference count: the view stays mapped, only
the count drops, and no unmap, resume, or warning happens. -/
theorem putK_lt (size v : Nat) (k : Nat) (m : Int) (s : SmState)
    (h : s.bootArgs = some v) (hm : s.boot_args_refcnt = m)
    (hk : (k : Int) < m) :
    putK size k s = { s with boot_args_refcnt := m - k } := by
  induction k generalizing s m with
  | zero =>
    cases s
    simp_all [putK]
  | succ k ih =>
    have hr : m - 1 ≠ 0 := by omega
    have hstep : sm_put_boot_args size s
        = { s with boot_args_refcnt := m - 1 } := by
      simp [sm_put_boot_args, h, hm, hr]
    have hrec := ih (m - 1) { s with boot_args_refcnt := m - 1 } h rfl
      (by omega)
    simp only [putK, hstep, hrec, SmState.mk.injEq]
    refine ⟨trivial, ?_, trivial, trivial, trivial⟩
    push_cast
    ring

/-- Exactly as many releases as the reference count: the view is
unmapped, cleared, and the dispatch thread resumed, each exactly once. -/
theorem putK_exhaust (size v : Nat) (m : Nat) (s : SmState)
    (h : s.bootArgs = some v) (hm : s.boot_args_refcnt = (m : Int))
    (hpos : 0 < m) :
    putK size m s
      = { s with bootArgs := none, boot_args_refcnt := 0,
                 unmaps := s.unmaps + 1, resumes := s.resumes + 1 } := by
  induction m generalizing s with
  | zero => omega
  | succ m ih =>
    have hsub : ((m : Int) + 1) - 1 = (m : Int) := by ring
    cases Nat.eq_zero_or_pos m with
    | inl hz =>
      subst hz
      have hstep : sm_put_boot_args size s
          = { s with bootArgs := none, boot_args_refcnt := 0,
                     unmaps := s.unmaps + 1, resumes := s.resumes + 1 } := by
        simp [sm_put_boot_args, h, hm]
      simp [putK, hstep]
    | inr hpos2 =>
      have hne : m ≠ 0 := Nat.pos_iff_ne_zero.mp hpos2
      have hstep : sm_put_boot_args size s
          = { s with boot_args_refcnt := (m : Int) } := by
        simp [sm_put_boot_args, h, hm, hne, Nat.cast_add, Nat.cast_one]
      have hrec := ih { s with boot_args_refcnt := (m : Int) } h rfl hpos2
      simp [putK, hstep, hrec]

/-- Releases against an absent view only accumulate warnings. -/
theorem putK_none (size k : Nat) (s : SmState) (h : s.bootArgs = none) :
    putK size k s = { s with warns := s.warns + k } := by
  induction k generalizing s with
  | zero =>
    cases s
    simp [putK]
  | succ k ih =>
    have hstep : sm_put_boot_args size s
        = { s with warns := s.warns + 1 } := by
      simp [sm_put_boot_args, h]
    have hrec := ih { s with warns := s.warns + 1 } h
    cases s
    simp only [putK, hstep, hrec]
    simp
    omega

/-- C3: after an init that mapped the view (reference count 1), `n`
acquires all succeed; through the first `n` releases the view stays
mapped and no unmap has happened, and once the `n` acquired references
plus the implicit init-time reference have all been released (`n + 1`
releases, or more) the view is unmapped, with the unmap performed exactly
once across the whole sequence, never twice. -/
theorem sm_boot_args_unmap_exactly_once (addr size v n k : Nat)
    (ha : addr ≠ 0) (hs : size ≠ 0) :
    (getN size n (sm_init addr size (some v) SmState.initial)).1
        = List.replicate n NO_ERROR ∧
      (sm_init addr size (some v) SmState.initial).boot_args_refcnt = 1 ∧
      (k ≤ n →
        (putK size k
            (getN size n (sm_init addr size (some v) SmState.initial)).2).bootArgs
            = some v ∧
          (putK size k
            (getN size n (sm_init addr size (some v) SmState.initial)).2).unmaps
            = 0) ∧
      (n + 1 ≤ k →
        (putK size k
            (getN size n (sm_init addr size (some v) SmState.initial)).2).bootArgs
            = none ∧
          (putK size k
            (getN size n (sm_init addr size (some v) SmState.initial)).2).unmaps
            = 1) := by
  have h1 : sm_init addr size (some v) SmState.initial
      = ⟨some v, 1, 0, 0, 0⟩ := by
    simp [sm_init, SmState.initial, ha, hs]
  have h2 := getN_mapped size v n (⟨some v, 1, 0, 0, 0⟩ : SmState) rfl
  refine ⟨by rw [h1, h2], by rw [h1], ?_, ?_⟩
  · intro hk
    rw [h1, h2]
    have h3 := putK_lt size v k (1 + (n : Int))
      (⟨some v, 1 + (n : Int), 0, 0, 0⟩ : SmState) rfl rfl (by omega)
    rw [h3]
    exact ⟨rfl, rfl⟩
  · intro hk
    rw [h1, h2]
    have hsplit : k = (n + 1) + (k - (n + 1)) := by omega
    rw [hsplit, putK_add]
    have h3 := putK_exhaust size v (n + 1)
      (⟨some v, 1 + (n : Int), 0, 0, 0⟩ : SmState) rfl (by push_cast; ring)
      (by omega)
    rw [h3]
    have h4 := putK_none size (k - (n + 1))
      (⟨none, 0, 0 + 1, 0 + 1, 0⟩ : SmState) rfl
    rw [h4]
    exact ⟨rfl, rfl⟩

/-- C3 witness: one acquire then two releases after a successful init. -/
theorem sm_boot_args_unmap_exactly_once_witness :
    (putK 1 2 (getN 1 1 (sm_init 1 1 (some 2) SmState.initial)).2).bootArgs
        = none ∧
      (putK 1 2 (getN 1 1 (sm_init 1 1 (some 2) SmState.initial)).2).unmaps
        = 1 := by
  have h := sm_boot_args_unmap_exactly_once 1 1 2 1 2 (by decide) (by decide)
  exact h.2.2.2 (by decide)

/-- With no mapped view, accessor sequences never create one, never
unmap, never resume, and leave the reference count alone. -/
theorem runOps_no_view (size : Nat) (ops : List Op) (s : SmState)
    (h : s.bootArgs = none) :
    (runOps size s ops).bootArgs = none ∧
      (runOps size s ops).boot_args_refcnt = s.boot_args_refcnt ∧
      (runOps size s ops).unmaps = s.unmaps ∧
      (runOps size s ops).resumes = s.resumes := by
  induction ops generalizing s with
  | nil => exact ⟨h, rfl, rfl, rfl⟩
  | cons op rest ih =>
    cases op with
    | get pN sN =>
      have hstep : (sm_get_boot_args pN sN size s).2.2 = s := by
        cases pN <;> cases sN <;> simp [sm_get_boot_args, h]
      simpa [runOps, hstep] using ih s h
    | put =>
      have hstep : sm_put_boot_args size s
          = { s with warns := s.warns + 1 } := by
        simp [sm_put_boot_args, h]
      have := ih { s with warns := s.warns + 1 } h
      simpa [runOps, hstep] using this

/-- C6: if the boot loader supplied a zero address or a zero size,
`sm_init` creates no mapping (the state is untouched), every later
`sm_get_boot_args` call with valid output pointers fails with
`ERR_NOT_CONFIGURED` no matter what accessor calls came before, and the
finalize hook `sm_release_boot_args` resumes the dispatch thread directly
without ever performing an unmap. -/
theorem sm_boot_args_unsupplied (addr size : Nat) (kres : Option Nat)
    (ops : List Op) (h : addr = 0 ∨ size = 0) :
    sm_init addr size kres SmState.initial = SmState.initial ∧
      (sm_get_boot_args false false size
          (runOps size (sm_init addr size kres SmState.initial) ops)).1
        = ERR_NOT_CONFIGURED ∧
      (sm_release_boot_args size
          (runOps size (sm_init addr size kres SmState.initial) ops)).unmaps
        = 0 ∧
      (sm_release_boot_args size
          (runOps size (sm_init addr size kres SmState.initial) ops)).resumes
        = (runOps size (sm_init addr size kres SmState.initial) ops).resumes
            + 1 := by
  have h1 : sm_init addr size kres SmState.initial = SmState.initial := by
    unfold sm_init
    have hcond : ¬(addr ≠ 0 ∧ size ≠ 0) := by
      rcases h with h | h
      · exact fun hc => hc.1 h
      · exact fun hc => hc.2 h
    simp [hcond]
  have h2 := runOps_no_view size ops SmState.initial rfl
  have hb : (runOps size SmState.initial ops).bootArgs = none := h2.1
  have hrel : sm_release_boot_args size (runOps size SmState.initial ops)
      = { runOps size SmState.initial ops with
            resumes := (runOps size SmState.initial ops).resumes + 1 } := by
    unfold sm_release_boot_args
    simp [hb]
  refine ⟨h1, ?_, ?_, ?_⟩
  · rw [h1]
    simp [sm_get_boot_args, hb]
  · rw [h1, hrel]
    have : (runOps size SmState.initial ops).unmaps = SmState.initial.unmaps :=
      h2.2.2.1
    simpa using this
  · rw [h1, hrel]

/-- C6 witness: a zero boot address with an empty accessor sequence. -/
theorem sm_boot_args_unsupplied_witness :
    sm_init 0 3 none SmState.initial = SmState.initial ∧
      (sm_get_boot_args false false 3
          (runOps 3 (sm_init 0 3 none SmState.initial) [])).1
        = ERR_NOT_CONFIGURED ∧
      (sm_release_boot_args 3
          (runOps 3 (sm_init 0 3 none SmState.initial) [])).unmaps = 0 ∧
      (sm_release_boot_args 3
          (runOps 3 (sm_init 0 3 none SmState.initial) [])).resumes
        = (runOps 3 (sm_init 0 3 none SmState.initial) []).resumes + 1 :=
  sm_boot_args_unsupplied 0 3 none [] (Or.inl rfl)
